import Mathlib

/-!
Shallow embedding of the decision core of the express-jobly job-board
service: the subset matcher (`src/helpers/subset.js`), the selective-update
parameter binder (`src/helpers/sql.js`), the dynamic filter compilers of
`Job.findAll` and `Technology.findAll`, the job model operations
(`Job.get`, `Job.requireTech`), the matched-jobs route of
`src/routes/users.js`, and the `ensureAdminOrCorrectUser` authorization
policy. JavaScript arrays become lists, objects with ordered string keys
become association lists, thrown errors become `Except`, and the database
becomes an explicit record of table rows threaded through each operation.
-/

namespace Jobly

/-- Error kinds raised by the core, mirroring the `expressError` classes the
source throws: `BadRequestError` (HTTP 400) and `NotFoundError` (HTTP 404),
each carrying its message. -/
inductive JoblyError
  | badRequest (msg : String)
  | notFound (msg : String)
  deriving DecidableEq, Repr

/-! ### Subset Matcher — `src/helpers/subset.js`

```js
function isSubset(arr1, arr2) {
    if (arr2.length === 0) return false;
    if (arr1.length === 0) return true;
    for (let i of arr1) {
        if (arr2.indexOf(i) === -1) return false;
    }
    return true;
}
```
Elements are technology identifiers (numbers); the early-returning loop is
`List.all` with membership (`indexOf !== -1`). -/

def isSubset (arr1 arr2 : List Nat) : Bool :=
  if arr2.length = 0 then false
  else if arr1.length = 0 then true
  else arr1.all fun i => arr2.contains i

/-! ### Parameter Binder — `src/helpers/sql.js`

```js
function sqlForPartialUpdate(dataToUpdate, jsToSql) {
  const keys = Object.keys(dataToUpdate);
  if (keys.length === 0) throw new BadRequestError("No data");
  const cols = keys.map((colName, idx) =>
      `"${jsToSql[colName] || colName}"=$${idx + 1}`,
  );
  return { setCols: cols.join(", "), values: Object.values(dataToUpdate) };
}
```
`dataToUpdate` is a JS object = insertion-ordered association list; the
binder never inspects the values, so the value type is a parameter. -/

/-- `jsToSql[colName] || colName`: the physical column for a logical field.
JS `||` falls back both when the key is absent (`undefined`) and when the
mapped name is the empty string (both falsy). -/
def physCol (jsToSql : List (String × String)) (colName : String) : String :=
  match jsToSql.lookup colName with
  | some s => if s = "" then colName else s
  | none => colName

/-- The `cols` array: one `"col"=$i` fragment per key, `i` counted from 1 in
key-enumeration order. -/
def colAssignments (keys : List String) (jsToSql : List (String × String)) : List String :=
  keys.enum.map fun p => "\x22" ++ physCol jsToSql p.2 ++ "\x22=$" ++ toString (p.1 + 1)

/-- Result of the parameter binder: the rendered assignment clause and the
positional parameter values. -/
structure SqlUpdate (α : Type) where
  setCols : String
  values : List α
  deriving DecidableEq, Repr

def sqlForPartialUpdate (dataToUpdate : List (String × α))
    (jsToSql : List (String × String)) : Except JoblyError (SqlUpdate α) :=
  let keys := dataToUpdate.map Prod.fst
  if keys.length = 0 then .error (.badRequest "No data")
  else .ok { setCols := String.intercalate ", " (colAssignments keys jsToSql),
             values := dataToUpdate.map Prod.snd }

/-! ### Filter Compiler — `Job.findAll` and `Technology.findAll`

```js
static async findAll(searchFilter = {}) {
    const { title, minSalary, hasEquity } = searchFilter;
    let searchQueries = [];
    let values = [];
    let idx = 1;
    if (title) { searchQueries.push(`title ILIKE $${idx}`); values.push(`%${title}%`); idx++; }
    if (minSalary) { searchQueries.push(`salary >= $${idx}`); values.push(minSalary); idx++; }
    if (hasEquity) { searchQueries.push(`equity > 0`); }
    if (searchQueries.length !== 0) {
        searchQueries = "WHERE " + searchQueries.join(" AND ");
    }
    ...
}
```
A missing key destructures to `undefined`; `if (title)` etc. are JS
truthiness tests, so the empty string, `0`, `false` and `undefined` are all
skipped. -/

/-- A positional SQL parameter value pushed by the compilers. -/
inductive SqlParam
  | str (s : String)
  | int (n : Int)
  deriving DecidableEq, Repr

/-- The optional filter keys `Job.findAll` destructures; `none` is a key
absent from the filter object (`undefined`). -/
structure JobFilter where
  title : Option String
  minSalary : Option Int
  hasEquity : Option Bool
  deriving DecidableEq, Repr

/-- JS truthiness of an optional string: absent and `""` are falsy. -/
def truthyStr : Option String → Bool
  | some s => !(s == "")
  | none => false

/-- JS truthiness of an optional number: absent and `0` are falsy. -/
def truthyInt : Option Int → Bool
  | some n => !(n == 0)
  | none => false

/-- JS truthiness of an optional boolean: only `true` is truthy. -/
def truthyBool : Option Bool → Bool
  | some b => b
  | none => false

/-- The fragment/parameter accumulation of `Job.findAll` (lines 40–59): the
state is (`searchQueries`, `values`, running placeholder index `idx`),
updated by the three truthiness-guarded pushes in source order. -/
def jobFindAllFilter (f : JobFilter) : List String × List SqlParam :=
  let s0 : List String × List SqlParam × Nat := ([], [], 1)
  let s1 :=
    if truthyStr f.title then
      (s0.1 ++ ["title ILIKE $" ++ toString s0.2.2],
       s0.2.1 ++ [SqlParam.str ("%" ++ f.title.getD "" ++ "%")], s0.2.2 + 1)
    else s0
  let s2 :=
    if truthyInt f.minSalary then
      (s1.1 ++ ["salary >= $" ++ toString s1.2.2],
       s1.2.1 ++ [SqlParam.int (f.minSalary.getD 0)], s1.2.2 + 1)
    else s1
  let s3 :=
    if truthyBool f.hasEquity then (s2.1 ++ ["equity > 0"], s2.2.1, s2.2.2)
    else s2
  (s3.1, s3.2.1)

/-- The fragment/parameter accumulation of `Technology.findAll`
(lines 46–56), whose only key is `name`. -/
def techFindAllFilter (name : Option String) : List String × List SqlParam :=
  if truthyStr name then
    (["name ILIKE $" ++ toString 1], [SqlParam.str ("%" ++ name.getD "" ++ "%")])
  else ([], [])

/-- Rendering of the restriction clause (both `findAll`s): `"WHERE "` plus
the fragments joined with `" AND "` when any fragment exists, and the empty
string otherwise (an empty JS array interpolates to `""`). -/
def renderWhere (searchQueries : List String) : String :=
  if searchQueries.length ≠ 0 then
    "WHERE " ++ String.intercalate " AND " searchQueries
  else ""

/-- Following the spec's words, for comparison with the compiled output: the
number of filter keys PRESENT in a `Job.findAll` filter set, counting a key
as present whenever it is supplied at all. -/
def specPresentKeyCount (f : JobFilter) : Nat :=
  (if f.title.isSome then 1 else 0) + (if f.minSalary.isSome then 1 else 0) +
    (if f.hasEquity.isSome then 1 else 0)

/-- The number of filter keys whose supplied value is JS-truthy — the keys
the compiler actually emits a fragment for. -/
def truthyKeyCount (f : JobFilter) : Nat :=
  (if truthyStr f.title then 1 else 0) + (if truthyInt f.minSalary then 1 else 0) +
    (if truthyBool f.hasEquity then 1 else 0)

/-- The number of value-bearing truthy keys (`title`, `minSalary`) — the
keys that also push a parameter. -/
def truthyValueKeyCount (f : JobFilter) : Nat :=
  (if truthyStr f.title then 1 else 0) + (if truthyInt f.minSalary then 1 else 0)

/-! ### Data model and database state

Tables become lists of row records in retrieval order; SQL lookups become
`List.find?` and filters. -/

/-- A `{techId, techName}` row, the shape of `job.requirements` entries and
of `user.techSkills` entries. -/
structure TechRef where
  techId : Nat
  techName : String
  deriving DecidableEq, Repr

/-- A row of the `jobs` table. -/
structure JobRow where
  id : Nat
  title : String
  salary : Int
  equity : Option String
  companyHandle : String
  deriving DecidableEq, Repr

/-- A row of the `companies` table (the fields `Job.get` selects). -/
structure Company where
  handle : String
  name : String
  description : String
  deriving DecidableEq, Repr

/-- A row of the `technologies` table. -/
structure Tech where
  id : Nat
  name : String
  deriving DecidableEq, Repr

/-- A user as `User.get` returns it: username plus tech-skill rows. -/
structure UserRec where
  username : String
  techSkills : List TechRef
  deriving DecidableEq, Repr

/-- The database: the tables the embedded operations touch. -/
structure Db where
  users : List UserRec
  jobs : List JobRow
  technologies : List Tech
  requirements : List (Nat × Nat)
  companies : List Company
  deriving DecidableEq, Repr

/-- The requirements query of `Job.get`: rows of `requirements` with the
given `job_id`, inner-joined with `technologies` on `tech_id = id`. -/
def requirementsFor (db : Db) (jobId : Nat) : List TechRef :=
  (db.requirements.filter fun p => p.1 == jobId).filterMap fun p =>
    (db.technologies.find? fun t => t.id == p.2).map fun t =>
      { techId := p.2, techName := t.name }

/-- The enriched job `Job.get` returns: the row fields with `companyHandle`
replaced by the company record and the requirement rows attached. -/
structure EnrichedJob where
  id : Nat
  title : String
  salary : Int
  equity : Option String
  company : Option Company
  requirements : List TechRef
  deriving DecidableEq, Repr

def enrichRow (db : Db) (j : JobRow) : EnrichedJob :=
  { id := j.id, title := j.title, salary := j.salary, equity := j.equity,
    company := db.companies.find? fun c => c.handle == j.companyHandle,
    requirements := requirementsFor db j.id }

/-- `Job.get` (src/unnamed/part_000 lines 91–134): look the row up by id,
`NotFoundError` when absent, otherwise the enriched job. -/
def jobGet (db : Db) (id : Nat) : Except JoblyError EnrichedJob :=
  match db.jobs.find? fun j => j.id == id with
  | none => .error (.notFound ("No job: " ++ toString id))
  | some j => .ok (enrichRow db j)

/-- `Job.requireTech` (src/unnamed/part_000 lines 189–231): check the job
exists, then the technology, then that the pair is not already recorded,
and only then insert the requirement row. -/
def requireTech (db : Db) (jobId techId : Nat) :
    Except JoblyError (Nat × Nat) × Db :=
  match db.jobs.find? fun j => j.id == jobId with
  | none => (.error (.notFound ("No job: " ++ toString jobId)), db)
  | some _ =>
    match db.technologies.find? fun t => t.id == techId with
    | none => (.error (.notFound ("No tech: " ++ toString techId)), db)
    | some _ =>
      match db.requirements.find? fun p => p.1 == jobId && p.2 == techId with
      | some _ => (.error (.badRequest "Duplicate tech requirement."), db)
      | none =>
        (.ok (jobId, techId),
         { db with requirements := db.requirements ++ [(jobId, techId)] })

/-! ### Recommendation Assembler — `GET /users/:username/matched-jobs`
(src/routes/users.js lines 174–195)

```js
const user = await User.get(username);
const userTechSkillIds = user.techSkills.map(t => t.techId);
const allJobs = await Job.findAll();
for (let j of allJobs) {
  const job = await Job.get(j.id);
  const requiredSkillIds = job.requirements.map(r => r.techId)
  if (isSubset(requiredSkillIds, userTechSkillIds)) {
    matchedJobs.push(job);
  }
}
```
-/

/-- Modelled from the spec: `User.get` (src/models/user.js is not under
src/) resolves the identity together with its skill rows and signals
`NotFound` when the identity does not exist. -/
def userGet (db : Db) (username : String) : Except JoblyError UserRec :=
  match db.users.find? fun u => u.username == username with
  | none => .error (.notFound ("No user: " ++ username))
  | some u => .ok u

/-- The per-posting loop of the matched-jobs route: re-fetch each listed job
by id, keep it when its requirement ids are an `isSubset` of the skill
ids. -/
def matchedJobsLoop (db : Db) (skillIds : List Nat) :
    Except JoblyError (List EnrichedJob) :=
  db.jobs.foldlM
    (fun acc j => do
      let job ← jobGet db j.id
      if isSubset (job.requirements.map TechRef.techId) skillIds then
        pure (acc ++ [job])
      else
        pure acc)
    []

/-- The closed form the loop computes on a consistent database: the enriched
posting list filtered by the subset matcher, in original order. -/
def matchedJobsOf (db : Db) (skillIds : List Nat) : List EnrichedJob :=
  (db.jobs.map (enrichRow db)).filter fun job =>
    isSubset (job.requirements.map TechRef.techId) skillIds

/-- A retrieval performed by the matched-jobs handler. -/
inductive FetchEv
  | userGet (username : String)
  | jobsFindAll
  | jobGet (id : Nat)
  deriving DecidableEq, Repr

/-- The whole route handler, instrumented with the list of retrievals it
performs and returning the (unchanged) database state alongside the
response. -/
def matchedJobsRoute (db : Db) (username : String) :
    Except JoblyError (List EnrichedJob) × List FetchEv × Db :=
  match userGet db username with
  | .error e => (.error e, [FetchEv.userGet username], db)
  | .ok u =>
    let skillIds := u.techSkills.map TechRef.techId
    let evs := FetchEv.userGet username :: FetchEv.jobsFindAll ::
      db.jobs.map fun j => FetchEv.jobGet j.id
    match matchedJobsLoop db skillIds with
    | .error e => (.error e, evs, db)
    | .ok jobs => (.ok jobs, evs, db)

/-! ### Authorization Policy -/

/-- The authenticated identity: subject identifier and role flag. -/
structure Identity where
  username : String
  isAdmin : Bool
  deriving DecidableEq, Repr

/-- Outcome of an authorization check, with the two deny kinds of the
taxonomy kept distinct. -/
inductive AuthzDecision
  | allow
  | denyUnauthenticated
  | denyForbidden
  deriving DecidableEq, Repr

/-- Modelled from the spec: `ensureAdminOrCorrectUser`
(src/middleware/auth.js is not under src/). The allow condition follows
§4.3 of the spec: elevated role flag, or subject identifier equal — by
case-sensitive string equality — to the resource reference bound to the
route. The deny outcome follows the route tests of the repository
(src/routes/users.test.js), which expect HTTP 401, the `Unauthenticated`
outcome, both for anonymous requests and for authenticated non-admin
non-owner requests on these routes (the tests named "unauth for anon" and
"unauth for unadmin user excluding user himself" both expect 401). -/
def ensureAdminOrCorrectUser (ident : Option Identity) (resource : String) :
    AuthzDecision :=
  match ident with
  | none => .denyUnauthenticated
  | some u =>
    if u.isAdmin || u.username == resource then .allow
    else .denyUnauthenticated

/-! ### Theorems: Subset Matcher -/

/-- C1. The claim reads `isSubset [] S = true` for every `S`, including
`S = []`; but the source tests `arr2.length === 0` first, so the empty
requirement list against the empty skill list yields `false` (as the
repository's own test `expect(isSubset([], [])).toEqual(false)` records). -/
theorem isSubset_empty_empty_counterexample : isSubset [] [] = false := by rfl

/-- C1 (amended): an empty requirement list matches every NON-EMPTY skill
list; against the empty skill list the matcher returns `false`. -/
theorem isSubset_nil_left (S : List Nat) (hS : S ≠ []) :
    isSubset [] S = true ∧ isSubset ([] : List Nat) [] = false := by
  refine ⟨?_, rfl⟩
  unfold isSubset
  simp [List.length_eq_zero, hS]

/-- C1 witness: the amended statement at the concrete skill list `[1]`. -/
theorem isSubset_nil_left_witness :
    isSubset [] [1] = true ∧ isSubset ([] : List Nat) [] = false :=
  isSubset_nil_left [1] (by decide)

/-- C2. For every non-empty requirement list `R`, `isSubset R S = true` iff
every element of `R` occurs in `S`; in particular `isSubset R [] = false`. -/
theorem isSubset_iff_subset (R S : List Nat) (hR : R ≠ []) :
    (isSubset R S = true ↔ ∀ x ∈ R, x ∈ S) ∧ isSubset R [] = false := by
  constructor
  · unfold isSubset
    rcases S with _ | ⟨s, S'⟩
    · simp only [List.length_nil, if_true]
      constructor
      · intro h; exact absurd h (by simp)
      · intro h
        rcases R with _ | ⟨r, R'⟩
        · exact absurd rfl hR
        · exact absurd (h r (by simp)) (by simp)
    · simp [List.length_eq_zero, hR, List.all_eq_true]
  · unfold isSubset
    simp

/-- C2 witness: at `R = [1, 2]`, `S = [2, 1, 3]` the equivalence and the
empty-skill clause hold. -/
theorem isSubset_iff_subset_witness :
    (isSubset [1, 2] [2, 1, 3] = true ↔ ∀ x ∈ [1, 2], x ∈ [2, 1, 3]) ∧
      isSubset [1, 2] [] = false :=
  isSubset_iff_subset [1, 2] [2, 1, 3] (by decide)

/-! ### Theorems: Parameter Binder -/

/-! ### Theorems: Filter Compiler -/

/-- C3. The claim reads "exactly one predicate fragment per present key";
but the compiler tests JS truthiness, so the present key
`hasEquity = false` (and likewise `minSalary = 0` or `title = ""`)
contributes no fragment at all: one key present, zero fragments. -/
theorem jobFindAllFilter_presentKey_counterexample :
    specPresentKeyCount ⟨none, none, some false⟩ = 1 ∧
      (jobFindAllFilter ⟨none, none, some false⟩).1.length = 0 :=
  ⟨rfl, rfl⟩

/-- C3 (amended): one fragment per present TRUTHY key (non-empty `title`,
non-zero `minSalary`, `hasEquity = true`; falsy supplied values are
ignored), in the fixed order title, minSalary, hasEquity with placeholders
numbered consecutively from `$1`; the parameter count equals the number of
truthy value-bearing keys (`hasEquity` contributes none); fragments are
joined with `" AND "`; and `Technology.findAll` behaves the same way on its
single `name` key. -/
theorem jobFindAllFilter_spec (f : JobFilter) (g : Option String) :
    (jobFindAllFilter f).1 =
        (if truthyStr f.title then ["title ILIKE $1"] else []) ++
          (if truthyInt f.minSalary then
            ["salary >= $" ++ toString (if truthyStr f.title then 2 else 1)]
          else []) ++
          (if truthyBool f.hasEquity then ["equity > 0"] else []) ∧
      (jobFindAllFilter f).1.length = truthyKeyCount f ∧
      (jobFindAllFilter f).2.length = truthyValueKeyCount f ∧
      ((jobFindAllFilter f).1 ≠ [] →
        renderWhere (jobFindAllFilter f).1 =
          "WHERE " ++ String.intercalate " AND " (jobFindAllFilter f).1) ∧
      (techFindAllFilter g).1.length = (if truthyStr g then 1 else 0) ∧
      (techFindAllFilter g).2.length = (if truthyStr g then 1 else 0) := by
  cases htb : truthyStr f.title <;> cases hmb : truthyInt f.minSalary <;>
    cases hhb : truthyBool f.hasEquity <;> cases hgb : truthyStr g <;>
    simp [jobFindAllFilter, techFindAllFilter, truthyKeyCount,
      truthyValueKeyCount, renderWhere, htb, hmb, hhb, hgb] <;>
    try rfl

/-- C3 witness: the amended statement at the filter
`{title := "net", hasEquity := true}` and technology filter `"py"`. -/
theorem jobFindAllFilter_spec_witness :
    (jobFindAllFilter ⟨some "net", none, some true⟩).1 =
        (if truthyStr (some "net") then ["title ILIKE $1"] else []) ++
          (if truthyInt none then
            ["salary >= $" ++ toString (if truthyStr (some "net") then 2 else 1)]
          else []) ++
          (if truthyBool (some true) then ["equity > 0"] else []) ∧
      (jobFindAllFilter ⟨some "net", none, some true⟩).1.length =
        truthyKeyCount ⟨some "net", none, some true⟩ ∧
      (jobFindAllFilter ⟨some "net", none, some true⟩).2.length =
        truthyValueKeyCount ⟨some "net", none, some true⟩ ∧
      ((jobFindAllFilter ⟨some "net", none, some true⟩).1 ≠ [] →
        renderWhere (jobFindAllFilter ⟨some "net", none, some true⟩).1 =
          "WHERE " ++
            String.intercalate " AND "
              (jobFindAllFilter ⟨some "net", none, some true⟩).1) ∧
      (techFindAllFilter (some "py")).1.length =
        (if truthyStr (some "py") then 1 else 0) ∧
      (techFindAllFilter (some "py")).2.length =
        (if truthyStr (some "py") then 1 else 0) :=
  jobFindAllFilter_spec ⟨some "net", none, some true⟩ (some "py")

/-- C8. The empty filter set compiles to no fragments and no parameters, and
the rendered restriction clause is the empty string — no `WHERE` of any
form — for `Job.findAll` and `Technology.findAll` alike. -/
theorem findAll_emptyFilter_unrestricted :
    jobFindAllFilter ⟨none, none, none⟩ = ([], []) ∧
      renderWhere (jobFindAllFilter ⟨none, none, none⟩).1 = "" ∧
      techFindAllFilter none = ([], []) ∧
      renderWhere (techFindAllFilter none).1 = "" :=
  ⟨rfl, rfl, rfl, rfl⟩

/-- C6. An empty field-update set makes the binder fail with the
`BadRequestError "No data"` (the spec's `InvalidUpdateRequest`), whatever the
name-translation table; no clause or parameter list is produced. -/
theorem sqlForPartialUpdate_empty (α : Type) (jsToSql : List (String × String)) :
    sqlForPartialUpdate ([] : List (String × α)) jsToSql =
      .error (.badRequest "No data") := rfl

/-- C7. A non-empty field-update set yields a parameter list of the fields'
values in enumeration order (so its length is the field count) and an
assignment clause joining one fragment per field, the `i`-th fragment
binding the `i`-th field's physical column to placeholder `$(i+1)`; a field
absent from the name-translation table keeps its logical name verbatim. -/
theorem sqlForPartialUpdate_nonempty (α : Type) (data : List (String × α))
    (jsToSql : List (String × String)) (h : data ≠ []) :
    ∃ r, sqlForPartialUpdate data jsToSql = .ok r ∧
      r.values = data.map Prod.snd ∧
      r.values.length = data.length ∧
      r.setCols = String.intercalate ", " (colAssignments (data.map Prod.fst) jsToSql) ∧
      (colAssignments (data.map Prod.fst) jsToSql).length = data.length ∧
      (∀ i c, (data.map Prod.fst)[i]? = some c →
        (colAssignments (data.map Prod.fst) jsToSql)[i]? =
          some ("\x22" ++ physCol jsToSql c ++ "\x22=$" ++ toString (i + 1))) ∧
      (∀ c, jsToSql.lookup c = none → physCol jsToSql c = c) := by
  have hne : ¬ (data.map Prod.fst).length = 0 := by
    simp [List.length_eq_zero, h]
  refine ⟨{ setCols := String.intercalate ", "
              (colAssignments (data.map Prod.fst) jsToSql),
            values := data.map Prod.snd }, ?_, rfl, ?_, rfl, ?_, ?_, ?_⟩
  · simp [sqlForPartialUpdate, hne, h]
  · simp
  · simp [colAssignments]
  · intro i c hc
    simp [colAssignments, List.getElem?_map, List.getElem?_enum, hc]
  · intro c hc
    simp [physCol, hc]

/-- C7 witness: the spec's example — update set `{name: "X"}` with no
name-translation entry yields clause `"name"=$1` and value list `["X"]`. -/
theorem sqlForPartialUpdate_nonempty_witness :
    (∃ r, sqlForPartialUpdate [("name", "X")] ([] : List (String × String)) = .ok r ∧
      r.values = [("name", "X")].map Prod.snd ∧
      r.values.length = [("name", "X")].length ∧
      r.setCols = String.intercalate ", "
        (colAssignments ([("name", "X")].map Prod.fst) []) ∧
      (colAssignments ([("name", "X")].map Prod.fst) []).length =
        [("name", "X")].length ∧
      (∀ i c, ([("name", "X")].map Prod.fst)[i]? = some c →
        (colAssignments ([("name", "X")].map Prod.fst) [])[i]? =
          some ("\x22" ++ physCol [] c ++ "\x22=$" ++ toString (i + 1))) ∧
      (∀ c, ([] : List (String × String)).lookup c = none → physCol [] c = c)) ∧
    sqlForPartialUpdate [("name", "X")] ([] : List (String × String)) =
      .ok { setCols := "\x22name\x22=$1", values := ["X"] } :=
  ⟨sqlForPartialUpdate_nonempty String [("name", "X")] []
      (List.cons_ne_nil _ _), rfl⟩

/-! ### Theorems: Recommendation Assembler -/

/-- When the job ids of a row list are pairwise distinct, looking a listed
row up by its own id finds that row again. -/
lemma find?_id_self {l : List JobRow} (h : (l.map JobRow.id).Nodup)
    {j : JobRow} (hj : j ∈ l) :
    l.find? (fun j' => j'.id == j.id) = some j := by
  induction l with
  | nil => cases hj
  | cons a l ih =>
    rw [List.map_cons, List.nodup_cons] at h
    rcases List.mem_cons.mp hj with rfl | hj'
    · simp [List.find?_cons]
    · have hne : (a.id == j.id) = false := by
        rw [beq_eq_false_iff_ne]
        intro e
        exact h.1 (e ▸ List.mem_map_of_mem JobRow.id hj')
      rw [List.find?_cons, hne]
      exact ih h.2 hj'

/-- The per-posting loop, unrolled over any suffix of rows each of which the
by-id re-fetch returns unchanged, equals append-filter of the enriched
rows. -/
lemma matchedJobsLoop_go (db : Db) (skillIds : List Nat)
    (js : List JobRow) (acc : List EnrichedJob)
    (h : ∀ j ∈ js, db.jobs.find? (fun j' => j'.id == j.id) = some j) :
    js.foldlM
      (fun acc j => do
        let job ← jobGet db j.id
        if isSubset (job.requirements.map TechRef.techId) skillIds then
          pure (acc ++ [job])
        else
          pure acc)
      acc =
      .ok (acc ++ (js.map (enrichRow db)).filter fun job =>
        isSubset (job.requirements.map TechRef.techId) skillIds) := by
  induction js generalizing acc with
  | nil => simp [pure, Except.pure]
  | cons j js ih =>
    have hj : db.jobs.find? (fun j' => j'.id == j.id) = some j :=
      h j (List.mem_cons_self j js)
    have hj2 : jobGet db j.id = Except.ok (enrichRow db j) := by
      simp [jobGet, hj]
    have hrest : ∀ x ∈ js, db.jobs.find? (fun j' => j'.id == x.id) = some x :=
      fun x hx => h x (List.mem_cons_of_mem j hx)
    rw [List.foldlM_cons]
    simp only [hj2, bind, Except.bind]
    by_cases hp :
        isSubset ((enrichRow db j).requirements.map TechRef.techId) skillIds = true
    · rw [if_pos hp]
      refine (ih (acc ++ [enrichRow db j]) hrest).trans ?_
      simp [List.filter_cons, hp]
    · rw [if_neg hp]
      refine (ih acc hrest).trans ?_
      have hp2 : isSubset ((enrichRow db j).requirements.map TechRef.techId)
          skillIds = false := by
        simpa using hp
      simp [List.filter_cons, hp2]

/-- C4. On a database whose job ids are distinct (the primary-key
invariant), the matched-jobs loop returns exactly the enriched posting list
filtered by the subset matcher: a sublist of the full posting list in
original retrieval order, containing a posting iff `isSubset` holds of its
requirement ids against the skill ids. -/
theorem matchedJobs_filter (db : Db) (skillIds : List Nat)
    (hids : (db.jobs.map JobRow.id).Nodup) :
    matchedJobsLoop db skillIds = .ok (matchedJobsOf db skillIds) ∧
      (matchedJobsOf db skillIds).Sublist (db.jobs.map (enrichRow db)) ∧
      ∀ job ∈ db.jobs.map (enrichRow db),
        (job ∈ matchedJobsOf db skillIds ↔
          isSubset (job.requirements.map TechRef.techId) skillIds = true) := by
  refine ⟨?_, List.filter_sublist _, ?_⟩
  · have := matchedJobsLoop_go db skillIds db.jobs []
      (fun j hj => find?_id_self hids hj)
    simpa [matchedJobsLoop, matchedJobsOf] using this
  · intro job hjob
    unfold matchedJobsOf
    rw [List.mem_filter]
    exact ⟨fun hx => hx.2, fun hx => ⟨hjob, hx⟩⟩

/-- Concrete database for the spec example: technologies A=1, B=2, C=3;
posting 1 requires {1,2}, posting 2 requires {1,2,3}, posting 3 requires
nothing. -/
def dbExample : Db :=
  { users := [],
    jobs := [
      { id := 1, title := "J1", salary := 1, equity := some "0.1",
        companyHandle := "c1" },
      { id := 2, title := "J2", salary := 2, equity := some "0.2",
        companyHandle := "c1" },
      { id := 3, title := "J3", salary := 3, equity := none,
        companyHandle := "c1" }],
    technologies := [
      { id := 1, name := "A" }, { id := 2, name := "B" },
      { id := 3, name := "C" }],
    requirements := [(1, 1), (1, 2), (2, 1), (2, 2), (2, 3)],
    companies := [
      { handle := "c1", name := "C1", description := "Desc1" }] }

/-- C4 witness: the spec example — skill set {1,2} against requirement sets
{1,2}, {1,2,3}, {} keeps postings 1 and 3 and drops posting 2. -/
theorem matchedJobs_filter_witness :
    ((dbExample.jobs.map JobRow.id).Nodup ∧
      matchedJobsLoop dbExample [1, 2] = .ok (matchedJobsOf dbExample [1, 2]) ∧
      (matchedJobsOf dbExample [1, 2]).Sublist
        (dbExample.jobs.map (enrichRow dbExample)) ∧
      ∀ job ∈ dbExample.jobs.map (enrichRow dbExample),
        (job ∈ matchedJobsOf dbExample [1, 2] ↔
          isSubset (job.requirements.map TechRef.techId) [1, 2] = true)) ∧
    (matchedJobsOf dbExample [1, 2]).map EnrichedJob.id = [1, 3] :=
  ⟨⟨by decide, matchedJobs_filter dbExample [1, 2] (by decide)⟩, by decide⟩

/-- C9. When the username names no identity, the matched-jobs handler
signals `NotFound` having performed only the user retrieval — no posting
list fetch and no per-posting fetch — and on every path (this one included)
the handler leaves the database unchanged. -/
theorem matchedJobsRoute_notFound (db : Db) (username : String)
    (h : db.users.find? (fun u => u.username == username) = none) :
    (matchedJobsRoute db username).1 =
        .error (.notFound ("No user: " ++ username)) ∧
      (matchedJobsRoute db username).2.1 = [FetchEv.userGet username] ∧
      FetchEv.jobsFindAll ∉ (matchedJobsRoute db username).2.1 ∧
      (∀ id, FetchEv.jobGet id ∉ (matchedJobsRoute db username).2.1) ∧
      (∀ (db2 : Db) (un : String), (matchedJobsRoute db2 un).2.2 = db2) := by
  refine ⟨?_, ?_, ?_, ?_, ?_⟩
  · simp [matchedJobsRoute, userGet, h]
  · simp [matchedJobsRoute, userGet, h]
  · simp [matchedJobsRoute, userGet, h]
  · intro id
    simp [matchedJobsRoute, userGet, h]
  · intro db2 un
    unfold matchedJobsRoute
    cases userGet db2 un with
    | error e => rfl
    | ok u =>
      dsimp only
      cases matchedJobsLoop db2 (List.map TechRef.techId u.techSkills) with
      | error e => rfl
      | ok jobs => rfl

/-- Concrete database for the C9 witness: one user `u1`, one posting. -/
def dbNoUser : Db :=
  { users := [{ username := "u1", techSkills := [] }],
    jobs := [{ id := 7, title := "J", salary := 1, equity := none,
               companyHandle := "c1" }],
    technologies := [],
    requirements := [],
    companies := [] }

/-- C9 witness: the username `xx` names no identity in `dbNoUser`. -/
theorem matchedJobsRoute_notFound_witness :
    (matchedJobsRoute dbNoUser "xx").1 =
        .error (.notFound ("No user: " ++ "xx")) ∧
      (matchedJobsRoute dbNoUser "xx").2.1 = [FetchEv.userGet "xx"] ∧
      FetchEv.jobsFindAll ∉ (matchedJobsRoute dbNoUser "xx").2.1 ∧
      (∀ id, FetchEv.jobGet id ∉ (matchedJobsRoute dbNoUser "xx").2.1) ∧
      (∀ (db2 : Db) (un : String), (matchedJobsRoute db2 un).2.2 = db2) :=
  matchedJobsRoute_notFound dbNoUser "xx" (by decide)

/-! ### Theorems: Job.requireTech -/

/-- C10. `Job.requireTech` fails with `NotFound` when the job is absent,
with `NotFound` when the job exists but the technology is absent, and with
`BadRequest` when the pair is already recorded, leaving the database
untouched in each of these cases (and in every error case); and when the
requirements relation holds no duplicate rows, it still holds none after
the call. -/
theorem requireTech_spec (db : Db) (jobId techId : Nat) :
    (db.jobs.find? (fun j => j.id == jobId) = none →
      requireTech db jobId techId =
        (.error (.notFound ("No job: " ++ toString jobId)), db)) ∧
      ((db.jobs.find? (fun j => j.id == jobId)).isSome →
        db.technologies.find? (fun t => t.id == techId) = none →
        requireTech db jobId techId =
          (.error (.notFound ("No tech: " ++ toString techId)), db)) ∧
      ((db.jobs.find? (fun j => j.id == jobId)).isSome →
        (db.technologies.find? (fun t => t.id == techId)).isSome →
        (jobId, techId) ∈ db.requirements →
        requireTech db jobId techId =
          (.error (.badRequest "Duplicate tech requirement."), db)) ∧
      (∀ e, (requireTech db jobId techId).1 = .error e →
        (requireTech db jobId techId).2 = db) ∧
      (db.requirements.Nodup →
        (requireTech db jobId techId).2.requirements.Nodup) := by
  refine ⟨?_, ?_, ?_, ?_, ?_⟩
  · intro h1
    simp [requireTech, h1]
  · intro h1 h2
    rw [Option.isSome_iff_exists] at h1
    obtain ⟨j, hj⟩ := h1
    simp [requireTech, hj, h2]
  · intro h1 h2 hmem
    rw [Option.isSome_iff_exists] at h1 h2
    obtain ⟨j, hj⟩ := h1
    obtain ⟨t, ht⟩ := h2
    have hdup : (db.requirements.find?
        (fun p => p.1 == jobId && p.2 == techId)).isSome := by
      rw [List.find?_isSome]
      exact ⟨(jobId, techId), hmem, by simp⟩
    rw [Option.isSome_iff_exists] at hdup
    obtain ⟨p, hp⟩ := hdup
    simp [requireTech, hj, ht, hp]
  · intro e he
    unfold requireTech at he ⊢
    cases h1 : db.jobs.find? fun j => j.id == jobId with
    | none => rfl
    | some j =>
      rw [h1] at he
      cases h2 : db.technologies.find? fun t => t.id == techId with
      | none => rfl
      | some t =>
        rw [h2] at he
        cases h3 : db.requirements.find?
            fun p => p.1 == jobId && p.2 == techId with
        | none =>
          rw [h3] at he
          cases he
        | some p => rfl
  · intro hnd
    unfold requireTech
    cases h1 : db.jobs.find? fun j => j.id == jobId with
    | none => exact hnd
    | some j =>
      cases h2 : db.technologies.find? fun t => t.id == techId with
      | none => exact hnd
      | some t =>
        cases h3 : db.requirements.find?
            fun p => p.1 == jobId && p.2 == techId with
        | some p => exact hnd
        | none =>
          have hnotmem : (jobId, techId) ∉ db.requirements := by
            intro hmem
            have := List.find?_eq_none.mp h3 (jobId, techId) hmem
            simp at this
          simp only [List.nodup_append, List.nodup_singleton]
          exact ⟨hnd, by simp, by
            intro a ha hb
            rw [List.mem_singleton] at hb
            exact hnotmem (hb ▸ ha)⟩

/-- Concrete database for the C10 witness: job 1 and technology 2 exist and
the pair (1, 2) is already required. -/
def dbDup : Db :=
  { users := [],
    jobs := [{ id := 1, title := "J", salary := 1, equity := none,
               companyHandle := "c1" }],
    technologies := [{ id := 2, name := "A" }],
    requirements := [(1, 2)],
    companies := [] }

/-- C10 witness: the statement at `dbDup` with jobId 1, techId 2, where the
duplicate branch fires and the relation stays duplicate-free. -/
theorem requireTech_spec_witness :
    ((dbDup.jobs.find? (fun j => j.id == 1) = none →
      requireTech dbDup 1 2 =
        (.error (.notFound ("No job: " ++ toString 1)), dbDup)) ∧
      ((dbDup.jobs.find? (fun j => j.id == 1)).isSome →
        dbDup.technologies.find? (fun t => t.id == 2) = none →
        requireTech dbDup 1 2 =
          (.error (.notFound ("No tech: " ++ toString 2)), dbDup)) ∧
      ((dbDup.jobs.find? (fun j => j.id == 1)).isSome →
        (dbDup.technologies.find? (fun t => t.id == 2)).isSome →
        (1, 2) ∈ dbDup.requirements →
        requireTech dbDup 1 2 =
          (.error (.badRequest "Duplicate tech requirement."), dbDup)) ∧
      (∀ e, (requireTech dbDup 1 2).1 = .error e →
        (requireTech dbDup 1 2).2 = dbDup) ∧
      (dbDup.requirements.Nodup →
        (requireTech dbDup 1 2).2.requirements.Nodup)) ∧
    requireTech dbDup 1 2 =
      (.error (.badRequest "Duplicate tech requirement."), dbDup) :=
  ⟨requireTech_spec dbDup 1 2, rfl⟩

/-! ### Theorems: Authorization Policy -/

/-- C5. The claim reads that a present identity that is neither elevated
nor the owner is denied as `Forbidden`; but the repository denies such a
request exactly as it denies an anonymous one — the `Unauthenticated`
outcome (HTTP 401), as its own route tests expect. -/
theorem ensureAdminOrCorrectUser_forbidden_counterexample :
    ensureAdminOrCorrectUser (some { username := "u2", isAdmin := false })
        "u1" = AuthzDecision.denyUnauthenticated ∧
      ensureAdminOrCorrectUser (some { username := "u2", isAdmin := false })
        "u1" ≠ AuthzDecision.denyForbidden := by
  decide

/-- C5 (amended): the policy allows an elevated identity regardless of
ownership, allows a standard identity exactly when its subject identifier
equals the resource reference under case-sensitive string equality, and
denies every other request — anonymous or not — as `Unauthenticated`. -/
theorem ensureAdminOrCorrectUser_spec (ident : Option Identity)
    (resource : String) :
    (ident = none →
      ensureAdminOrCorrectUser ident resource =
        AuthzDecision.denyUnauthenticated) ∧
      ∀ u, ident = some u →
        (u.isAdmin = true →
          ensureAdminOrCorrectUser ident resource = AuthzDecision.allow) ∧
        (u.isAdmin = false →
          (ensureAdminOrCorrectUser ident resource = AuthzDecision.allow ↔
            u.username = resource)) ∧
        (ensureAdminOrCorrectUser ident resource ≠ AuthzDecision.allow →
          ensureAdminOrCorrectUser ident resource =
            AuthzDecision.denyUnauthenticated) := by
  constructor
  · intro hn
    subst hn
    rfl
  · rintro u rfl
    refine ⟨?_, ?_, ?_⟩
    · intro ha
      simp [ensureAdminOrCorrectUser, ha]
    · intro ha
      by_cases hc : u.username = resource <;>
        simp [ensureAdminOrCorrectUser, ha, hc]
    · intro hd
      by_cases hc : (u.isAdmin || u.username == resource) = true
      · have hallow : ensureAdminOrCorrectUser (some u) resource =
            AuthzDecision.allow := by
          simp [ensureAdminOrCorrectUser, hc]
        exact absurd hallow hd
      · simp [ensureAdminOrCorrectUser, hc]

/-- The standard (non-admin) identity `u1`, for the C5 witness. -/
def identU1 : Identity :=
  { username := "u1", isAdmin := false }

/-- C5 witness: the owner itself is allowed; the same username in a
different letter case is not the owner and is denied `Unauthenticated`. -/
theorem ensureAdminOrCorrectUser_spec_witness :
    ((some identU1 = (none : Option Identity) →
      ensureAdminOrCorrectUser (some identU1) "u1" =
        AuthzDecision.denyUnauthenticated) ∧
      ∀ u, some identU1 = some u →
        (u.isAdmin = true →
          ensureAdminOrCorrectUser (some identU1) "u1" =
            AuthzDecision.allow) ∧
        (u.isAdmin = false →
          (ensureAdminOrCorrectUser (some identU1) "u1" =
              AuthzDecision.allow ↔
            u.username = "u1")) ∧
        (ensureAdminOrCorrectUser (some identU1) "u1" ≠
            AuthzDecision.allow →
          ensureAdminOrCorrectUser (some identU1) "u1" =
            AuthzDecision.denyUnauthenticated)) ∧
    ensureAdminOrCorrectUser (some { username := "U1", isAdmin := false })
      "u1" = AuthzDecision.denyUnauthenticated :=
  ⟨ensureAdminOrCorrectUser_spec (some identU1) "u1", by decide⟩

end Jobly
